import Mathlib

/-!
Verification of the service registry and health-check engine of
simple-web-monitoring (src/main.go), as a shallow embedding.

The Go program keeps a `Monitor` struct holding a slice of `Service`
records guarded by an RWMutex, persisted as a JSON array in a backing
file.  Here the monitor state is a pure record: the in-memory service
list together with the observable state of the backing file.  Disk
writes and outbound HTTP probes are environmental effects; their
outcomes are passed in as explicit parameters (a Bool saying whether
the write succeeds, a function giving each URL's probe outcome).
JSON is modelled at the level of an abstract JSON value tree:
`saveToFile` stores the encoded tree in the file, `LoadFromFile`
decodes it, mirroring json.MarshalIndent / json.Unmarshal at the
value level.
-/

/-- One monitored endpoint, mirroring `type Service struct` in main.go
(fields Name, URL, Status with JSON tags "name", "url", "status"). -/
structure Service where
  name : String
  url : String
  status : Bool
deriving DecidableEq, Repr

/-- Abstract JSON value tree, the value-level image of encoding/json. -/
inductive Json where
  | null : Json
  | bool (b : Bool) : Json
  | num (n : Int) : Json
  | str (s : String) : Json
  | arr (elems : List Json) : Json
  | obj (fields : List (String × Json)) : Json
deriving Repr

/-- Contents of the backing file: either a well-formed JSON document or
bytes that are not valid JSON. -/
inductive FileContent where
  | wellFormed (j : Json) : FileContent
  | malformed : FileContent
deriving Repr

/-- Observable state of the backing file at `m.filename`: absent
(os.IsNotExist), present but unreadable (ioutil.ReadFile fails), or
present with some contents. -/
inductive FileState where
  | absent : FileState
  | unreadable : FileState
  | present (c : FileContent) : FileState
deriving Repr

/-- The monitor state: the in-memory `services` slice together with the
state of the backing file.  The RWMutex of the Go struct is the locking
discipline under which each operation below runs atomically; the
`filename` string is abstracted into the `file` field holding that
file's observable state. -/
structure Monitor where
  services : List Service
  file : FileState

/-- Value-level image of marshalling one Service: an object with the
tagged field names, in declaration order. -/
def encodeService (sv : Service) : Json :=
  Json.obj [("name", Json.str sv.name), ("url", Json.str sv.url),
            ("status", Json.bool sv.status)]

/-- Value-level image of `json.MarshalIndent(m.services, ...)`:
a JSON array of the encoded services in registry order. -/
def encodeServices (l : List Service) : Json :=
  Json.arr (l.map encodeService)

/-- Best-effort unmarshalling of one JSON value into a string field,
following encoding/json: a JSON string stores the value, JSON null
leaves the field as it is with no error, and any other value is an
UnmarshalTypeError that leaves the field as it is while decoding
continues.  The Bool says whether an error was recorded. -/
def unmarshalStringField (cur : String) (v : Json) : String × Bool :=
  match v with
  | Json.str s => (s, false)
  | Json.null => (cur, false)
  | _ => (cur, true)

/-- Best-effort unmarshalling of one JSON value into a bool field,
with the same error discipline as the string case. -/
def unmarshalBoolField (cur : Bool) (v : Json) : Bool × Bool :=
  match v with
  | Json.bool b => (b, false)
  | Json.null => (cur, false)
  | _ => (cur, true)

/-- Unmarshalling one object entry into a Service, following
encoding/json: a key matches a field tag exactly or, failing every
exact match, up to ASCII case (Go tries exact matches first, then
EqualFold); an unknown key's value is skipped; a type mismatch is
recorded while the remaining entries still decode. -/
def decodeField (sv : Service) (key : String) (v : Json) : Service × Bool :=
  if key = "name" then
    let r := unmarshalStringField sv.name v
    ({ sv with name := r.1 }, r.2)
  else if key = "url" then
    let r := unmarshalStringField sv.url v
    ({ sv with url := r.1 }, r.2)
  else if key = "status" then
    let r := unmarshalBoolField sv.status v
    ({ sv with status := r.1 }, r.2)
  else if key.toLower = "name" then
    let r := unmarshalStringField sv.name v
    ({ sv with name := r.1 }, r.2)
  else if key.toLower = "url" then
    let r := unmarshalStringField sv.url v
    ({ sv with url := r.1 }, r.2)
  else if key.toLower = "status" then
    let r := unmarshalBoolField sv.status v
    ({ sv with status := r.1 }, r.2)
  else
    (sv, false)

/-- Folds `decodeField` over an object's entries (a later duplicate
key overwrites), accumulating whether any error was recorded. -/
def decodeObjFields : Service → Bool → List (String × Json) → Service × Bool
  | sv, err, [] => (sv, err)
  | sv, err, (k, v) :: rest =>
    let r := decodeField sv k v
    decodeObjFields r.1 (err || r.2) rest

/-- Unmarshalling one array element into a Service, starting from the
Go zero value (empty strings, false): an object decodes entry by
entry, JSON null leaves the zero value with no error, any other value
is a type error that leaves the zero value and is recorded. -/
def decodeService (j : Json) : Service × Bool :=
  match j with
  | Json.obj fields =>
    decodeObjFields { name := "", url := "", status := false } false fields
  | Json.null => ({ name := "", url := "", status := false }, false)
  | _ => ({ name := "", url := "", status := false }, true)

/-- Best-effort unmarshalling of the array elements: every element
yields an entry (partially decoded when it contains a type error), and
the flag says whether any element recorded an error. -/
def decodeServiceList : List Json → List Service × Bool
  | [] => ([], false)
  | x :: xs =>
    let r := decodeService x
    let rest := decodeServiceList xs
    (r.1 :: rest.1, r.2 || rest.2)

/-- Value-level image of `json.Unmarshal(data, &m.services)` on a
syntactically valid document, following encoding/json: JSON null sets
the slice to nil with no error; an array is decoded best-effort and
the slice holds the partial result even when a type error is returned
alongside; any other top-level value is a type error that leaves the
slice untouched.  The first component is the new slice contents
(none = target untouched), the second whether an error is returned. -/
def decodeServices (j : Json) : Option (List Service) × Bool :=
  match j with
  | Json.null => (some [], false)
  | Json.arr elems =>
    let r := decodeServiceList elems
    (some r.1, r.2)
  | _ => (none, true)

/-- Persist error taxonomy of `saveToFile`: marshalling a []Service
cannot fail, so the only failure is the write. -/
inductive PersistError where
  | ioError : PersistError
deriving DecidableEq, Repr

/-- Embedding of `func (m *Monitor) saveToFile() error`: serialize the
current sequence and overwrite the backing file.  Whether the write
succeeds is decided by the environment (`writeOk`); on failure the
in-memory state is untouched and the error is returned. -/
def saveToFile (m : Monitor) (writeOk : Bool) : Monitor × Except PersistError Unit :=
  if writeOk then
    ({ m with file := FileState.present (FileContent.wellFormed (encodeServices m.services)) },
     Except.ok ())
  else
    (m, Except.error PersistError.ioError)

/-- Embedding of `func (m *Monitor) AddService(name, url string)`:
append a Service with Status=false, then call saveToFile.  The second
component is the list of log messages the operation emits: the source
discards the error returned by `m.saveToFile()` without logging, so it
is always empty. -/
def AddService (m : Monitor) (name url : String) (writeOk : Bool) :
    Monitor × List String :=
  let service : Service := { name := name, url := url, status := false }
  let m' : Monitor := { m with services := m.services ++ [service] }
  ((saveToFile m' writeOk).1, [])

/-- Embedding of `func (m *Monitor) RemoveService(index int) bool`:
out-of-bounds index returns false with no mutation; otherwise the
element at `index` is removed (append of the two surrounding slices),
saveToFile is called (its error again discarded), and true is
returned. -/
def RemoveService (m : Monitor) (index : Int) (writeOk : Bool) : Monitor × Bool :=
  if index < 0 ∨ (m.services.length : Int) ≤ index then
    (m, false)
  else
    let i := index.toNat
    let m' : Monitor := { m with services := m.services.take i ++ m.services.drop (i + 1) }
    ((saveToFile m' writeOk).1, true)

/-- Load error taxonomy of `LoadFromFile`: a read failure
(ioutil.ReadFile) or a parse failure (json.Unmarshal). -/
inductive LoadError where
  | ioError : LoadError
  | parseError : LoadError
deriving DecidableEq, Repr

/-- Embedding of `func (m *Monitor) LoadFromFile() error`: a missing
file is not an error and leaves the sequence as it is; a read failure
returns an I/O error without touching the sequence; a file that is
not valid JSON fails json.Unmarshal's validity check before anything
is written to the target, so the sequence is untouched; a valid
document is unmarshalled best-effort, and whatever json.Unmarshal
wrote to the slice replaces the sequence even when a type error is
returned alongside. -/
def LoadFromFile (m : Monitor) : Monitor × Except LoadError Unit :=
  match m.file with
  | FileState.absent => (m, Except.ok ())
  | FileState.unreadable => (m, Except.error LoadError.ioError)
  | FileState.present FileContent.malformed => (m, Except.error LoadError.parseError)
  | FileState.present (FileContent.wellFormed j) =>
    match decodeServices j with
    | (some l, false) => ({ m with services := l }, Except.ok ())
    | (some l, true) => ({ m with services := l }, Except.error LoadError.parseError)
    | (none, _) => (m, Except.error LoadError.parseError)

/-- Embedding of `NewMonitor`: a fresh monitor starts with an empty
slice; the backing file at its filename is whatever the environment
holds. -/
def NewMonitor (f : FileState) : Monitor :=
  { services := [], file := f }

/-- Embedding of `func (m *Monitor) GetServices() []Service`
(snapshot): an independent copy of the current sequence. -/
def GetServices (m : Monitor) : List Service :=
  m.services

/-- Outcome of the single outbound `client.Get(url)`: either a response
with some status code, or one of the failure modes that make
client.Get return a non-nil error. -/
inductive HttpOutcome where
  | response (statusCode : Nat) : HttpOutcome
  | transportError : HttpOutcome
  | timeout : HttpOutcome
  | tlsFailure : HttpOutcome
  | dnsFailure : HttpOutcome
deriving DecidableEq, Repr

/-- The fixed client timeout of `CheckService`, in seconds
(`Timeout: 10 * time.Second`). -/
def clientTimeoutSeconds : Nat := 10

/-- Embedding of `func (m *Monitor) CheckService(url string) bool`:
any error from client.Get yields false; otherwise the verdict is
`resp.StatusCode == http.StatusOK`.  The body is discarded. -/
def CheckService (outcome : HttpOutcome) : Bool :=
  match outcome with
  | HttpOutcome.response code => code == 200
  | _ => false

/-- Embedding of `func (m *Monitor) CheckAllServices()` (sweep): under
the exclusive lock, overwrite each entry's status with the probe result
for its URL.  `probe` gives the outcome of `CheckService` per URL.
No call to saveToFile appears in the source. -/
def CheckAllServices (m : Monitor) (probe : String → Bool) : Monitor :=
  { m with services := m.services.map (fun sv => { sv with status := probe sv.url }) }

/-- Request body of POST /api/add, mirroring the anonymous struct with
json tags "name" and "url" in addServiceHandler. -/
structure AddReq where
  name : String
  url : String
deriving DecidableEq, Repr

/-- Request body of POST /api/remove, mirroring the anonymous struct
with json tag "index" in removeServiceHandler. -/
structure RemoveReq where
  index : Int
deriving DecidableEq, Repr

/-- The JSON body both handlers write on the success/error path:
`{"success": bool}` with an optional `"error"` message. -/
structure ApiResponse where
  success : Bool
  error : Option String
deriving DecidableEq, Repr

/-- What a handler sends back: either a plain-text HTTP error written
with http.Error, or a JSON body written with the given HTTP status
(the handlers never call WriteHeader, so the JSON status is the
implicit 200). -/
inductive HandlerResult where
  | httpError (status : Nat) (message : String) : HandlerResult
  | jsonBody (status : Nat) (body : ApiResponse) : HandlerResult
deriving DecidableEq, Repr

/-- Embedding of `addServiceHandler`: non-POST methods get
http.Error(..., 405); a body that fails to decode gets a 200 JSON
error; an empty name or URL gets a 200 JSON error; otherwise
AddService runs and a 200 JSON success is returned.  `body` is the
result of decoding the request body (`none` = malformed JSON). -/
def addServiceHandler (m : Monitor) (method : String) (body : Option AddReq)
    (writeOk : Bool) : Monitor × HandlerResult :=
  if method ≠ "POST" then
    (m, HandlerResult.httpError 405 "Метод не поддерживается")
  else
    match body with
    | none =>
      (m, HandlerResult.jsonBody 200 { success := false, error := some "Неверный формат данных" })
    | some req =>
      if req.name = "" ∨ req.url = "" then
        (m, HandlerResult.jsonBody 200 { success := false, error := some "Название и URL обязательны" })
      else
        ((AddService m req.name req.url writeOk).1,
         HandlerResult.jsonBody 200 { success := true, error := none })

/-- Embedding of `removeServiceHandler`: non-POST methods get
http.Error(..., 405); a body that fails to decode gets a 200 JSON
error; otherwise RemoveService runs, a false return yields a 200 JSON
error and a true return a 200 JSON success. -/
def removeServiceHandler (m : Monitor) (method : String) (body : Option RemoveReq)
    (writeOk : Bool) : Monitor × HandlerResult :=
  if method ≠ "POST" then
    (m, HandlerResult.httpError 405 "Метод не поддерживается")
  else
    match body with
    | none =>
      (m, HandlerResult.jsonBody 200 { success := false, error := some "Неверный формат данных" })
    | some req =>
      let r := RemoveService m req.index writeOk
      if r.2 then
        (r.1, HandlerResult.jsonBody 200 { success := true, error := none })
      else
        (r.1, HandlerResult.jsonBody 200 { success := false, error := some "Неверный индекс сервиса" })

/-- One request of a batch of add calls: its (name, url) payload and
the outcome the environment gives its disk write. -/
def runAdds (m : Monitor) : List (String × String × Bool) → Monitor
  | [] => m
  | (n, u, w) :: rest => runAdds (AddService m n u w).1 rest

/-- The Service an add request creates. -/
def mkService (p : String × String × Bool) : Service :=
  { name := p.1, url := p.2.1, status := false }

theorem saveToFile_services (m : Monitor) (w : Bool) :
    ((saveToFile m w).1).services = m.services := by
  cases w <;> simp [saveToFile]

theorem AddService_services (m : Monitor) (n u : String) (w : Bool) :
    ((AddService m n u w).1).services
      = m.services ++ [{ name := n, url := u, status := false }] := by
  simp [AddService, saveToFile_services]

theorem decodeService_encodeService (sv : Service) :
    decodeService (encodeService sv) = (sv, false) := rfl

theorem decodeServiceList_map_encode (l : List Service) :
    decodeServiceList (l.map encodeService) = (l, false) := by
  induction l with
  | nil => rfl
  | cons a t ih => simp [decodeServiceList, decodeService_encodeService, ih]

theorem runAdds_services (m : Monitor) (l : List (String × String × Bool)) :
    (runAdds m l).services = m.services ++ l.map mkService := by
  induction l generalizing m with
  | nil => simp [runAdds]
  | cons a t ih =>
    obtain ⟨n, u, w⟩ := a
    simp [runAdds, ih, AddService_services, mkService]

/-- A one-entry registry whose backing file is exactly the serialized
in-memory sequence (the state right after a successful persist). -/
def c1Services : List Service :=
  [{ name := "Google", url := "https://www.google.com", status := false }]

/-- Synced state used to exhibit that a sweep breaks write-through. -/
def c1State : Monitor :=
  { services := c1Services,
    file := FileState.present (FileContent.wellFormed (encodeServices c1Services)) }

/-- C1 counterexample: the claim includes the sweep among the
operations after which memory equals disk, but `CheckAllServices`
never calls saveToFile.  Starting from a synced one-entry state, a
sweep whose probe reports the endpoint up changes the in-memory status
to true while the file still holds the serialization with status
false, so serializing the post-sweep sequence does not match the
backing file. -/
theorem c1_counterexample :
    (CheckAllServices c1State (fun _ => true)).file
      ≠ FileState.present (FileContent.wellFormed
          (encodeServices (CheckAllServices c1State (fun _ => true)).services)) := by
  simp [CheckAllServices, c1State, c1Services, encodeServices, encodeService]

/-- C1 (amended): write-through holds for the two persisting mutations:
after a successful add, and after an in-bounds remove whose write
succeeds, the backing file holds exactly the serialization of the
resulting in-memory sequence.  (The sweep is excluded: it updates only
memory.) -/
theorem c1_write_through (m : Monitor) (name url : String) (i : Int)
    (h0 : 0 ≤ i) (h1 : i < (m.services.length : Int)) :
    ((AddService m name url true).1.file
      = FileState.present (FileContent.wellFormed
          (encodeServices (AddService m name url true).1.services)))
    ∧ (RemoveService m i true).2 = true
    ∧ ((RemoveService m i true).1.file
      = FileState.present (FileContent.wellFormed
          (encodeServices (RemoveService m i true).1.services))) := by
  have hcond : ¬ (i < 0 ∨ (m.services.length : Int) ≤ i) := by omega
  refine ⟨?_, ?_, ?_⟩ <;> simp [AddService, RemoveService, hcond, saveToFile]

/-- C1 witness: the amended theorem applied to a concrete synced state,
adding one service and removing index 0. -/
theorem c1_witness :
    ((AddService c1State "GitHub" "https://github.com" true).1.file
      = FileState.present (FileContent.wellFormed
          (encodeServices (AddService c1State "GitHub" "https://github.com" true).1.services)))
    ∧ (RemoveService c1State 0 true).2 = true
    ∧ ((RemoveService c1State 0 true).1.file
      = FileState.present (FileContent.wellFormed
          (encodeServices (RemoveService c1State 0 true).1.services))) :=
  c1_write_through c1State "GitHub" "https://github.com" 0 (by decide) (by decide)

/-- C2: remove semantics.  In bounds (0 <= i < length): returns true,
the result is the prefix before i followed by the suffix after i,
so the length shrinks by one, every element before position i is
unchanged and every later element shifts left by one; when the write
succeeds the sequence is persisted.  Out of bounds (i < 0 or
i >= length): returns false and changes neither memory nor file. -/
theorem c2_remove_service (m : Monitor) (i : Int) (w : Bool) :
    (0 ≤ i → i < (m.services.length : Int) →
      (RemoveService m i w).2 = true
      ∧ (RemoveService m i w).1.services
          = m.services.take i.toNat ++ m.services.drop (i.toNat + 1)
      ∧ ((RemoveService m i w).1.services).length = m.services.length - 1
      ∧ (∀ j : Nat, j < i.toNat →
          ((RemoveService m i w).1.services)[j]? = m.services[j]?)
      ∧ (∀ j : Nat, i.toNat ≤ j →
          ((RemoveService m i w).1.services)[j]? = m.services[j + 1]?)
      ∧ (w = true → (RemoveService m i w).1.file
          = FileState.present (FileContent.wellFormed
              (encodeServices ((RemoveService m i w).1.services)))))
    ∧ ((i < 0 ∨ (m.services.length : Int) ≤ i) → RemoveService m i w = (m, false)) := by
  constructor
  · intro h0 h1
    have hcond : ¬ (i < 0 ∨ (m.services.length : Int) ≤ i) := by omega
    have hi : i.toNat < m.services.length := by omega
    have hs : (RemoveService m i w).1.services
        = m.services.take i.toNat ++ m.services.drop (i.toNat + 1) := by
      simp [RemoveService, hcond, saveToFile_services]
    have htk : (m.services.take i.toNat).length = i.toNat :=
      List.length_take_of_le (Nat.le_of_lt hi)
    refine ⟨?_, hs, ?_, ?_, ?_, ?_⟩
    · simp [RemoveService, hcond]
    · rw [hs]
      simp only [List.length_append, List.length_take, List.length_drop]
      omega
    · intro j hj
      rw [hs, List.getElem?_append_left (by omega), List.getElem?_take_of_lt hj]
    · intro j hj
      rw [hs, List.getElem?_append_right (by omega), List.getElem?_drop, htk]
      congr 1
      omega
    · intro hw
      subst hw
      simp [RemoveService, hcond, saveToFile]
  · intro h
    unfold RemoveService
    rw [if_pos h]

/-- Concrete two-entry registry used to instantiate the remove
theorem. -/
def c2State : Monitor :=
  { services := [{ name := "Google", url := "https://www.google.com", status := false },
                 { name := "GitHub", url := "https://github.com", status := true }],
    file := FileState.absent }

/-- C2 witness: removing index 0 from a two-entry registry succeeds;
removing index 5 fails and leaves the state untouched. -/
theorem c2_witness :
    (RemoveService c2State 0 true).2 = true
    ∧ RemoveService c2State 5 true = (c2State, false) :=
  ⟨((c2_remove_service c2State 0 true).1 (by decide) (by decide)).1,
   (c2_remove_service c2State 5 true).2 (by decide)⟩

/-- C3: add appends exactly one Service with the given name and url and
status=false at the tail; a subsequent snapshot equals the old snapshot
plus that one tail entry, so every previously present entry keeps its
value and position.  Holds whatever the outcome of the disk write. -/
theorem c3_add_appends (m : Monitor) (name url : String) (w : Bool) :
    GetServices (AddService m name url w).1
      = GetServices m ++ [{ name := name, url := url, status := false }] := by
  simp [GetServices, AddService_services]

/-- C4: round trip.  Persisting any sequence via a successful
saveToFile and loading the resulting file into a fresh monitor
reproduces exactly that sequence (same length, order and fields) and
reports success. -/
theorem c4_round_trip (l : List Service) (f : FileState) :
    LoadFromFile (NewMonitor ((saveToFile { services := l, file := f } true).1).file)
      = ({ services := l, file := ((saveToFile { services := l, file := f } true).1).file },
         Except.ok ()) := by
  simp [saveToFile, NewMonitor, LoadFromFile, decodeServices, encodeServices,
        decodeServiceList_map_encode]

/-- C6 counterexample: the claim says a failed write is logged.  On a
failed write, AddService emits no log message at all (the source
discards the error returned by saveToFile), even though the call
returns normally and the appended entry is kept. -/
theorem c6_counterexample :
    (AddService { services := [], file := FileState.absent }
        "Example" "https://example.com" false).2 = []
    ∧ (AddService { services := [], file := FileState.absent }
        "Example" "https://example.com" false).1.services
      = [{ name := "Example", url := "https://example.com", status := false }] :=
  ⟨rfl, rfl⟩

/-- C6 (amended): add never fails observably to the caller.  Even when
the disk write fails, the call returns normally, the in-memory
mutation is kept (not rolled back), and the failure is silently
discarded: no log message is emitted and no error is propagated. -/
theorem c6_add_never_fails (m : Monitor) (name url : String) :
    (AddService m name url false).1.services
        = m.services ++ [{ name := name, url := url, status := false }]
    ∧ (AddService m name url false).2 = [] :=
  ⟨AddService_services m name url false, rfl⟩

/-- C7: the health probe returns true exactly when the HTTP GET yields
a response with status code 200; every failure mode of the request
(transport error, timeout, TLS failure, DNS failure) and every
non-200 status collapse to false, with no other error channel; the
client timeout is the fixed 10 seconds. -/
theorem c7_check_service (o : HttpOutcome) :
    clientTimeoutSeconds = 10
    ∧ (CheckService o = true ↔ o = HttpOutcome.response 200) := by
  refine ⟨rfl, ?_⟩
  cases o <;> simp [CheckService]

/-- C8 counterexample: the claim quotes the error message
"name/url required" for an empty name, but the handler's actual
message is the Russian string.  Posting an empty name yields success
false with the message "Название и URL обязательны", which is not the
string "name/url required". -/
theorem c8_counterexample :
    (addServiceHandler { services := [], file := FileState.absent } "POST"
        (some { name := "", url := "https://x.com" }) true).2
      = HandlerResult.jsonBody 200 { success := false, error := some "Название и URL обязательны" }
    ∧ "Название и URL обязательны" ≠ "name/url required" :=
  ⟨rfl, by decide⟩

/-- C8 (amended): validation failures on /api/add and /api/remove are
returned as a JSON body with success=false and an error message under
HTTP status 200, never as a distinct HTTP error status, except that a
non-POST method gets a proper 405; the messages are the source's
Russian strings: "Неверный формат данных" for malformed JSON,
"Название и URL обязательны" for an empty name or url,
"Неверный индекс сервиса" for an out-of-range index; in every such
case the registry is unchanged. -/
theorem c8_validation_responses (m : Monitor) (w : Bool) :
    (∀ (method : String) (body : Option AddReq), method ≠ "POST" →
      addServiceHandler m method body w
        = (m, HandlerResult.httpError 405 "Метод не поддерживается"))
    ∧ addServiceHandler m "POST" none w
        = (m, HandlerResult.jsonBody 200 { success := false, error := some "Неверный формат данных" })
    ∧ (∀ req : AddReq, req.name = "" ∨ req.url = "" →
        addServiceHandler m "POST" (some req) w
          = (m, HandlerResult.jsonBody 200
              { success := false, error := some "Название и URL обязательны" }))
    ∧ (∀ (method : String) (body : Option RemoveReq), method ≠ "POST" →
        removeServiceHandler m method body w
          = (m, HandlerResult.httpError 405 "Метод не поддерживается"))
    ∧ removeServiceHandler m "POST" none w
        = (m, HandlerResult.jsonBody 200 { success := false, error := some "Неверный формат данных" })
    ∧ (∀ req : RemoveReq, req.index < 0 ∨ (m.services.length : Int) ≤ req.index →
        removeServiceHandler m "POST" (some req) w
          = (m, HandlerResult.jsonBody 200
              { success := false, error := some "Неверный индекс сервиса" })) := by
  refine ⟨?_, ?_, ?_, ?_, ?_, ?_⟩
  · intro method body h
    simp [addServiceHandler, h]
  · simp [addServiceHandler]
  · intro req h
    simp [addServiceHandler, h]
  · intro method body h
    simp [removeServiceHandler, h]
  · simp [removeServiceHandler]
  · intro req h
    simp [removeServiceHandler, RemoveService, h]

/-- C8 witness: the amended theorem at concrete requests on a fresh
empty registry: a GET to /api/add, an add with empty name, a remove
with index 5. -/
theorem c8_witness :
    addServiceHandler { services := [], file := FileState.absent } "GET" none true
      = ({ services := [], file := FileState.absent },
         HandlerResult.httpError 405 "Метод не поддерживается")
    ∧ addServiceHandler { services := [], file := FileState.absent } "POST"
        (some { name := "", url := "https://x.com" }) true
      = ({ services := [], file := FileState.absent },
         HandlerResult.jsonBody 200 { success := false, error := some "Название и URL обязательны" })
    ∧ removeServiceHandler { services := [], file := FileState.absent } "POST"
        (some { index := 5 }) true
      = ({ services := [], file := FileState.absent },
         HandlerResult.jsonBody 200 { success := false, error := some "Неверный индекс сервиса" }) :=
  ⟨(c8_validation_responses { services := [], file := FileState.absent } true).1
      "GET" none (by decide),
   (c8_validation_responses { services := [], file := FileState.absent } true).2.2.1
      { name := "", url := "https://x.com" } (Or.inl rfl),
   (c8_validation_responses { services := [], file := FileState.absent } true).2.2.2.2.2
      { index := 5 } (by decide)⟩

/-- C9: under the locking discipline every add runs atomically, so any
concurrent batch of N add calls executes as some serialization, i.e.
some permutation of the issued requests.  For every such serialization
the final sequence has length initial + N and, as a multiset, equals
the initial entries plus exactly the N new entries: none dropped, none
duplicated. -/
theorem c9_concurrent_adds (m : Monitor) (issued executed : List (String × String × Bool))
    (h : issued.Perm executed) :
    (runAdds m executed).services.length = m.services.length + issued.length
    ∧ (runAdds m executed).services.Perm (m.services ++ issued.map mkService) := by
  constructor
  · simp [runAdds_services, h.length_eq]
  · rw [runAdds_services]
    exact List.Perm.append_left m.services ((h.map mkService).symm)

/-- C9 witness: two add requests executed in the opposite order to the
one issued, starting from an empty registry. -/
theorem c9_witness :
    (runAdds { services := [], file := FileState.absent }
        [("b", "https://b", true), ("a", "https://a", true)]).services.length
      = ({ services := [], file := FileState.absent } : Monitor).services.length + 2
    ∧ (runAdds { services := [], file := FileState.absent }
        [("b", "https://b", true), ("a", "https://a", true)]).services.Perm
        (({ services := [], file := FileState.absent } : Monitor).services
          ++ [("a", "https://a", true), ("b", "https://b", true)].map mkService) :=
  c9_concurrent_adds { services := [], file := FileState.absent }
    [("a", "https://a", true), ("b", "https://b", true)]
    [("b", "https://b", true), ("a", "https://a", true)]
    (by decide)

/-- C10: the registry-level add enforces no validation: for every pair
of strings, empty ones included, it appends the entry with status
false and persists it; the non-emptiness check lives only in the HTTP
handler, which rejects an empty name or url without touching the
registry. -/
theorem c10_add_unvalidated (m : Monitor) (name url : String) :
    (AddService m name url true).1.services
        = m.services ++ [{ name := name, url := url, status := false }]
    ∧ (AddService m name url true).1.file
        = FileState.present (FileContent.wellFormed
            (encodeServices (m.services ++ [{ name := name, url := url, status := false }])))
    ∧ (∀ req : AddReq, req.name = "" ∨ req.url = "" →
        (addServiceHandler m "POST" (some req) true).1 = m) := by
  refine ⟨AddService_services m name url true, ?_, ?_⟩
  · simp [AddService, saveToFile]
  · intro req h
    simp [addServiceHandler, h]

/-- C10 witness: adding an entry with empty name and url at the
registry level succeeds, while the handler rejects an empty name
without mutating the registry. -/
theorem c10_witness :
    (AddService { services := [], file := FileState.absent } "" "" true).1.services
      = [{ name := "", url := "", status := false }]
    ∧ (addServiceHandler { services := [], file := FileState.absent } "POST"
        (some { name := "", url := "https://x.com" }) true).1
      = { services := [], file := FileState.absent } :=
  ⟨(c10_add_unvalidated { services := [], file := FileState.absent } "" "").1,
   (c10_add_unvalidated { services := [], file := FileState.absent } "" "").2.2
      { name := "", url := "https://x.com" } (Or.inl rfl)⟩
